import Mathlib

/-!
Shallow embedding of the uv resolver fragments under verification:
`crates/uv-resolver/src/pubgrub/dependencies.rs` (requirement translation)
and `crates/uv-resolver/src/resolver/batch_prefetch.rs` (batch prefetching).

Machine conventions: package names, extra names, group names, markers,
URLs, paths and index identifiers are opaque and modelled as `Nat`.
Versions are modelled as `Nat` with the usual order.  `pubgrub`'s
`Range<Version>` is modelled extensionally as a decidable membership
predicate `Nat → Bool`, with the set operations the source uses
(`full`, `intersection`, `complement`, `singleton`,
`strictly_lower_than`, `strictly_higher_than`).
-/

namespace UvResolver

/-- A PEP 440 version, abstracted to a natural number with the usual order. -/
abbrev Version := Nat

/-- The membership predicate of a `pubgrub::Range<Version>`. -/
def VRange := Version → Bool

/-- Range containing every version (`Range::full`). -/
def VRange.full : VRange := fun _ => true

/-- Pointwise intersection of two ranges (`Range::intersection`). -/
def VRange.intersection (r s : VRange) : VRange := fun v => r v && s v

/-- Set complement of a range (`Range::complement`). -/
def VRange.complement (r : VRange) : VRange := fun v => !(r v)

/-- Range holding exactly one version (`Range::singleton`). -/
def VRange.singleton (w : Version) : VRange := fun v => v == w

/-- Versions strictly below `w` (`Range::strictly_lower_than`). -/
def VRange.strictlyLowerThan (w : Version) : VRange := fun v => v < w

/-- Versions strictly above `w` (`Range::strictly_higher_than`). -/
def VRange.strictlyHigherThan (w : Version) : VRange := fun v => w < v

/-- A single comparison operator of a version specifier. -/
inductive SpecOp where
  | lt | le | eq | ne | ge | gt
deriving DecidableEq

/-- Modelled from the spec: `VersionSpecifiers` is "a user-facing constraint
syntax (e.g., `>=1.0,<2.0`)", i.e. a conjunction of operator/version pairs
(`uv-pep440`, not under `src/`). -/
abbrev VersionSpecifiers := List (SpecOp × Version)

/-- Modelled from the spec: `Ranges::from(specifier)` "compiled to a
VersionRange" — the conjunction of the specifier's comparisons
(`uv-pep440`, not under `src/`). -/
def Ranges.fromSpecifiers (ss : VersionSpecifiers) : VRange := fun v =>
  ss.all fun ow =>
    match ow.1 with
    | .lt => v < ow.2
    | .le => v ≤ ow.2
    | .eq => v == ow.2
    | .ne => v != ow.2
    | .ge => ow.2 ≤ v
    | .gt => ow.2 < v

/-- Modelled from the spec: the `PubGrubPackageInner` sum (spec §3
"PackageIdentity"): a root, base packages (`extra=None, dev=None,
marker=None` when a plain base), extra-virtual, dev-group-virtual and
marker-virtual nodes.  A `none` marker stands for a trivially-true marker. -/
inductive PubGrubPackageInner where
  | root
  | package (name : Nat) (extra : Option Nat) (dev : Option Nat) (marker : Option Nat)
  | extra (name : Nat) (extraName : Nat) (marker : Option Nat)
  | dev (name : Nat) (devName : Nat) (marker : Option Nat)
  | marker (name : Nat) (marker : Nat)
deriving DecidableEq

/-- Modelled from the spec: `PubGrubPackage::from_package` (not under `src/`)
"determine final identity variant by `extra` and resulting kind
(Package vs Extra vs Marker)": an extra yields an extra-virtual node, a
non-trivial marker a marker-virtual node, otherwise a base package. -/
def PubGrubPackage.from_package (name : Nat) (extra : Option Nat)
    (marker : Option Nat) : PubGrubPackageInner :=
  match extra with
  | some e => .extra name e marker
  | none =>
    match marker with
    | some m => .marker name m
    | none => .package name none none none

/-- Modelled from the spec: a parsed URL, one variant per source kind
(archive / git / path / directory), holding the normalized fields
(`uv-pypi-types`, not under `src/`). -/
inductive ParsedUrl where
  | archive (location : Nat) (subdirectory : Option Nat) (ext : Nat)
  | git (repository : Nat) (reference : Nat) (precise : Option Nat) (subdirectory : Option Nat)
  | path (installPath : Nat) (ext : Nat) (url : Nat)
  | directory (installPath : Nat) (editable : Bool) (virt : Bool) (url : Nat)
deriving DecidableEq

/-- A verbatim URL: the user's spelling, abstracted to a token; `to_url`
yields the normalized form. -/
structure VerbatimUrl where
  raw : Nat
deriving DecidableEq

/-- The normalized URL of a verbatim URL (`VerbatimUrl::to_url`). -/
def VerbatimUrl.to_url (u : VerbatimUrl) : Nat := u.raw

/-- A parsed URL together with the verbatim user spelling
(`VerbatimParsedUrl`). -/
structure VerbatimParsedUrl where
  parsed_url : ParsedUrl
  verbatim : VerbatimUrl
deriving DecidableEq

/-- The `RequirementSource` tagged union (spec §3; fields as destructured by
`PubGrubRequirement::from_requirement`). -/
inductive RequirementSource where
  | registry (specifier : VersionSpecifiers)
  | url (subdirectory : Option Nat) (location : Nat) (ext : Nat) (url : VerbatimUrl)
  | git (repository : Nat) (reference : Nat) (precise : Option Nat) (url : VerbatimUrl)
      (subdirectory : Option Nat)
  | path (ext : Nat) (url : VerbatimUrl) (installPath : Nat)
  | directory (editable : Bool) (virt : Bool) (url : VerbatimUrl) (installPath : Nat)
deriving DecidableEq

/-- A requirement: name, extras, marker (`none` = trivially true) and source
(spec §3 `Requirement`). -/
structure Requirement where
  name : Nat
  extras : List Nat
  marker : Option Nat
  source : RequirementSource
deriving DecidableEq

/-- A PubGrub-compatible package and version range
(`PubGrubRequirement`). -/
structure PubGrubRequirement where
  package : PubGrubPackageInner
  version : VRange
  specifier : Option VersionSpecifiers
  url : Option VerbatimParsedUrl

/-- The translated dependency consumed by the resolver
(`PubGrubDependency`). -/
structure PubGrubDependency where
  package : PubGrubPackageInner
  version : VRange
  specifier : Option VersionSpecifiers
  url : Option VerbatimParsedUrl

/-- `PubGrubRequirement::from_registry_requirement`: registry sources keep
the specifier, compile it to the range, and carry no URL. -/
def PubGrubRequirement.from_registry_requirement (specifier : VersionSpecifiers)
    (extra : Option Nat) (requirement : Requirement) : PubGrubRequirement :=
  { package := PubGrubPackage.from_package requirement.name extra requirement.marker
    specifier := some specifier
    url := none
    version := Ranges.fromSpecifiers specifier }

/-- `PubGrubRequirement::from_requirement`: registry sources delegate to
`from_registry_requirement`; URL-like sources parse into the matching
`ParsedUrl` variant, keep the verbatim spelling, and use the full range
with no specifier. -/
def PubGrubRequirement.from_requirement (requirement : Requirement)
    (extra : Option Nat) : PubGrubRequirement :=
  match requirement.source with
  | .registry specifier =>
    PubGrubRequirement.from_registry_requirement specifier extra requirement
  | .url subdirectory location ext url =>
    { package := PubGrubPackage.from_package requirement.name extra requirement.marker
      version := VRange.full
      specifier := none
      url := some { parsed_url := ParsedUrl.archive location subdirectory ext
                    verbatim := url } }
  | .git repository reference precise url subdirectory =>
    { package := PubGrubPackage.from_package requirement.name extra requirement.marker
      version := VRange.full
      specifier := none
      url := some { parsed_url := ParsedUrl.git repository reference precise subdirectory
                    verbatim := url } }
  | .path ext url installPath =>
    { package := PubGrubPackage.from_package requirement.name extra requirement.marker
      version := VRange.full
      specifier := none
      url := some { parsed_url := ParsedUrl.path installPath ext url.to_url
                    verbatim := url } }
  | .directory editable virt url installPath =>
    { package := PubGrubPackage.from_package requirement.name extra requirement.marker
      version := VRange.full
      specifier := none
      url := some { parsed_url := ParsedUrl.directory installPath editable virt url.to_url
                    verbatim := url } }

/-- The variant dispatch of the `filter_map` closure in
`PubGrubDependency::from_requirement`: package variants are dropped with a
warning when they are a non-dev self-dependency, marker and extra variants
pass through, and any other variant is dropped silently. -/
def classifyDependency (pr : PubGrubRequirement) (dev : Option Nat)
    (source_name : Option Nat) : Option PubGrubDependency × List Nat :=
  match pr.package with
  | .package name _ _ _ =>
    if dev.isNone ∧ source_name = some name then
      (none, [name])
    else
      (some { package := pr.package, version := pr.version
              specifier := pr.specifier, url := pr.url }, [])
  | .marker _ _ =>
    (some { package := pr.package, version := pr.version
            specifier := pr.specifier, url := pr.url }, [])
  | .extra _ _ _ =>
    (some { package := pr.package, version := pr.version
            specifier := pr.specifier, url := pr.url }, [])
  | _ => (none, [])

/-- The body of the `filter_map` closure in
`PubGrubDependency::from_requirement`: either a yielded dependency or
nothing, paired with the names warned about (the `warn!` call for a
dropped self-dependency). -/
def translateOne (requirement : Requirement) (dev : Option Nat)
    (source_name : Option Nat) (extra : Option Nat) :
    Option PubGrubDependency × List Nat :=
  classifyDependency (PubGrubRequirement.from_requirement requirement extra) dev source_name

/-- `PubGrubDependency::from_requirement`: one translation attempt for the
base (`none`) plus one per extra, self-dependencies outside dev groups
dropped with a warning.  Returns the yielded dependencies in iteration
order together with the warning log. -/
def PubGrubDependency.from_requirement (requirement : Requirement)
    (dev : Option Nat) (source_name : Option Nat) :
    List PubGrubDependency × List Nat :=
  let items := ((none :: requirement.extras.map some).map
    (translateOne requirement dev source_name))
  (items.filterMap Prod.fst, (items.map Prod.snd).flatten)

/-- Lookup in a hash-map model (association list), `0` when absent
(`map.get(&id).copied().unwrap_or_default()`). -/
def mapGet (m : List (Nat × Nat)) (id : Nat) : Nat :=
  match m with
  | [] => 0
  | kv :: rest => if kv.1 == id then kv.2 else mapGet rest id

/-- Insertion in a hash-map model: replace the binding for `id`, or add
one (`map.insert(id, v)`). -/
def mapInsert (m : List (Nat × Nat)) (id : Nat) (v : Nat) : List (Nat × Nat) :=
  match m with
  | [] => [(id, v)]
  | kv :: rest =>
    if kv.1 == id then (id, v) :: rest else kv :: mapInsert rest id v

/-- The prefetch controller state (`BatchPrefetcher`): per-package-handle
attempt counts and the attempt count snapshot at the last committed
prefetch burst. -/
structure BatchPrefetcher where
  tried_versions : List (Nat × Nat)
  last_prefetch : List (Nat × Nat)
deriving DecidableEq

/-- The default (empty) `BatchPrefetcher`. -/
def BatchPrefetcher.default : BatchPrefetcher := { tried_versions := [], last_prefetch := [] }

/-- `BatchPrefetcher::version_tried`: count an attempt, but only for base
packages (`extra: None, dev: None, marker: None`). -/
def BatchPrefetcher.version_tried (s : BatchPrefetcher) (id : Nat)
    (package : PubGrubPackageInner) : BatchPrefetcher :=
  match package with
  | .package _ none none none =>
    { s with tried_versions :=
        mapInsert s.tried_versions id (mapGet s.tried_versions id + 1) }
  | _ => s

/-- `BatchPrefetcher::should_prefetch`: the recorded attempt count and
whether a prefetch burst fires (thresholds 5, 10, 20, then every 20). -/
def BatchPrefetcher.should_prefetch (s : BatchPrefetcher) (id : Nat) : Nat × Bool :=
  let num_tried := mapGet s.tried_versions id
  let previous_prefetch := mapGet s.last_prefetch id
  let do_prefetch :=
    (decide (num_tried ≥ 5) && decide (previous_prefetch < 5))
    || (decide (num_tried ≥ 10) && decide (previous_prefetch < 10))
    || (decide (num_tried ≥ 20) && decide (previous_prefetch < 20))
    || (decide (num_tried ≥ 20) && decide (num_tried - previous_prefetch ≥ 20))
  (num_tried, do_prefetch)

/-- A `pubgrub::Term<Range<Version>>`: a positive or negative range. -/
inductive Term where
  | positive (t : VRange)
  | negative (t : VRange)

/-- A source distribution's registry file data: its `requires_python`
specifier, abstracted to an opaque token. -/
structure SDist where
  requires_python : Option Nat
deriving DecidableEq

/-- A registry wheel: PEP 658 metadata availability, owning index, and
`requires_python` (fields read by the prefetch gates). -/
structure Wheel where
  dist_info_metadata : Bool
  index : Nat
  requires_python : Option Nat
deriving DecidableEq

/-- The `CompatibleDist` sum as matched by the prefetch gates: installed,
source-only, source with incompatible wheel, or compatible wheel. -/
inductive CompatibleDist where
  | installedDist
  | sourceDist (sdist : SDist)
  | incompatibleWheel (sdist : SDist) (wheel : Wheel)
  | compatibleWheel (wheel : Wheel)
deriving DecidableEq

/-- Modelled from the spec: `CompatibleDist::wheel`
(`uv-distribution-types`, not under `src/`): the prebuilt wheel of the
distribution, when there is one ("if the chosen distribution is a source
distribution (not a prebuilt wheel), skip"). -/
def CompatibleDist.wheel : CompatibleDist → Option Wheel
  | .installedDist => none
  | .sourceDist _ => none
  | .incompatibleWheel _ w => some w
  | .compatibleWheel w => some w

/-- A candidate returned by the selector: its version, its version
identifier (for deduplication), and its compatible distribution, if any. -/
structure Candidate where
  version : Version
  version_id : Nat
  compatible : Option CompatibleDist

/-- The immutable environment of one prefetch burst: the candidate
selector specialized to the package under consideration, the direction
policy, the root-level constraints term, the index capabilities, the
interpreter-compatibility oracle, and the index's versions response
(`none` models an unregistered task). -/
structure PrefetchEnv where
  selectNoPreference : VRange → Option Candidate
  useHighestVersion : Bool
  unchangeable : Option Term
  supportsRangeRequests : Nat → Bool
  installedContainedBy : Nat → Bool
  targetContainedBy : Nat → Bool
  versionsFound : Option Bool

/-- The `BatchPrefetchStrategy` two-phase state: the compatible-range walk
and the in-order walk. -/
inductive BatchPrefetchStrategy where
  | compatible (compatible : VRange) (previous : Version)
  | inOrder (previous : Version)

/-- The range walked by the in-order phase: strictly lower than the last
version under a highest-version policy, strictly higher under a
lowest-version policy, intersected with the unchangeable-constraints
term (positive) or its complement (negative) when present. -/
def inOrderRange (env : PrefetchEnv) (previous : Version) : VRange :=
  let range :=
    if env.useHighestVersion then VRange.strictlyLowerThan previous
    else VRange.strictlyHigherThan previous
  match env.unchangeable with
  | none => range
  | some (.positive constraints) => range.intersection constraints
  | some (.negative negative_constraints) =>
    range.intersection negative_constraints.complement

/-- Outcome of one strategy step: no candidate left (`break`), a phase
switch consuming the iteration (`continue`), or a candidate with the
successor phase. -/
inductive PhaseStepResult where
  | exhausted
  | continueSwitch (phase : BatchPrefetchStrategy)
  | candidate (c : Candidate) (phase : BatchPrefetchStrategy)

/-- One step of the strategy state machine, as in the `match phase` of the
prefetch loop: the compatible phase selects within the compatible range
and excises the picked singleton, switching to the in-order phase on
exhaustion; the in-order phase selects within `inOrderRange` and stops on
exhaustion. -/
def phaseStep (env : PrefetchEnv) : BatchPrefetchStrategy → PhaseStepResult
  | .compatible compatible previous =>
    match env.selectNoPreference compatible with
    | some candidate =>
      .candidate candidate
        (.compatible
          (compatible.intersection (VRange.singleton candidate.version).complement)
          candidate.version)
    | none => .continueSwitch (.inOrder previous)
  | .inOrder previous =>
    match env.selectNoPreference (inOrderRange env previous) with
    | some candidate => .candidate candidate (.inOrder candidate.version)
    | none => .exhausted

/-- Outcome of the dispatch gates for one candidate: skip it (`continue`),
abort the whole burst (missing index capabilities), or pass on to the
deduplicating registration step. -/
inductive GateOutcome where
  | skip
  | abort
  | pass
deriving DecidableEq

/-- The interpreter-compatibility gate: source distributions (also behind an
incompatible wheel) must satisfy both the installed and the target
interpreter; compatible wheels must satisfy the target interpreter;
installed distributions bypass the check.  `true` means skip. -/
def pythonIncompatible (env : PrefetchEnv) : CompatibleDist → Bool
  | .installedDist => false
  | .sourceDist sdist =>
    match sdist.requires_python with
    | some rp => !env.installedContainedBy rp || !env.targetContainedBy rp
    | none => false
  | .incompatibleWheel sdist _ =>
    match sdist.requires_python with
    | some rp => !env.installedContainedBy rp || !env.targetContainedBy rp
    | none => false
  | .compatibleWheel wheel =>
    match wheel.requires_python with
    | some rp => !env.targetContainedBy rp
    | none => false

/-- The per-candidate dispatch gates of the prefetch loop, in source order:
no compatible distribution → skip; no wheel → skip; wheel without PEP 658
metadata on an index without range requests → abort the burst;
interpreter-incompatible → skip; otherwise proceed to registration. -/
def dispatchGate (env : PrefetchEnv) (candidate : Candidate) : GateOutcome :=
  match candidate.compatible with
  | none => .skip
  | some dist =>
    match dist.wheel with
    | none => .skip
    | some wheel =>
      if !(wheel.dist_info_metadata || env.supportsRangeRequests wheel.index) then
        .abort
      else if pythonIncompatible env dist then .skip
      else .pass

/-- The `for _ in 0..total_prefetch` loop of `prefetch_batches`: walks the
two-phase strategy, applies the dispatch gates, deduplicates through the
shared registration set, and submits one request per newly registered
candidate.  Returns the submitted requests (as version identifiers, in
order), the final registration set, and whether the burst was aborted. -/
def prefetchLoop (env : PrefetchEnv) (fuel : Nat) (phase : BatchPrefetchStrategy)
    (registered : List Nat) : List Nat × List Nat × Bool :=
  match fuel with
  | 0 => ([], registered, false)
  | fuel + 1 =>
    match phaseStep env phase with
    | .exhausted => ([], registered, false)
    | .continueSwitch phase2 => prefetchLoop env fuel phase2 registered
    | .candidate candidate phase2 =>
      match dispatchGate env candidate with
      | .abort => ([], registered, true)
      | .skip => prefetchLoop env fuel phase2 registered
      | .pass =>
        if candidate.version_id ∈ registered then
          prefetchLoop env fuel phase2 registered
        else
          let rest := prefetchLoop env fuel phase2 (candidate.version_id :: registered)
          (candidate.version_id :: rest.1, rest.2.1, rest.2.2)

/-- The resolver-side errors the prefetcher can raise. -/
inductive ResolveError where
  | unregisteredTask
deriving DecidableEq

/-- The state touched by a prefetch burst: the controller and the shared
distribution registration set (`in_memory.distributions()`). -/
structure ResolverState where
  prefetcher : BatchPrefetcher
  registered : List Nat
deriving DecidableEq

/-- The initial resolver state: default controller, nothing registered. -/
def ResolverState.default : ResolverState :=
  { prefetcher := BatchPrefetcher.default, registered := [] }

/-- The end of a prefetch burst that reached the loop, given the attempt
count observed at burst start and the loop result: the sent requests in
either case, and `last_prefetch` committed to the observed count exactly
when the burst was not aborted (the capability abort returns before the
commit in the source). -/
def burstResult (st : ResolverState) (id : Nat) (numTried : Nat)
    (r : List Nat × List Nat × Bool) : ResolverState × List Nat :=
  if r.2.2 then
    ({ st with registered := r.2.1 }, r.1)
  else
    ({ prefetcher := { st.prefetcher with
         last_prefetch := mapInsert st.prefetcher.last_prefetch id numTried }
       registered := r.2.1 }, r.1)

/-- The body of `prefetch_batches` after the base-package guard: consult
`should_prefetch`, resolve the versions response (erroring on an
unregistered task, returning quietly when not found), run the prefetch
loop from the compatible phase, and finish through `burstResult`. -/
def prefetchBatchesInner (env : PrefetchEnv) (st : ResolverState) (id : Nat)
    (version : Version) (current_range : VRange) :
    Except ResolveError (ResolverState × List Nat) :=
  if !(st.prefetcher.should_prefetch id).2 then .ok (st, [])
  else
    match env.versionsFound with
    | none => .error .unregisteredTask
    | some false => .ok (st, [])
    | some true =>
      .ok (burstResult st id (st.prefetcher.should_prefetch id).1
        (prefetchLoop env (min (st.prefetcher.should_prefetch id).1 50)
          (.compatible current_range version) st.registered))

/-- `BatchPrefetcher::prefetch_batches`: a no-op unless the decided package
is a plain base package; otherwise the burst body. -/
def prefetchBatches (env : PrefetchEnv) (st : ResolverState) (id : Nat)
    (next : PubGrubPackageInner) (version : Version) (current_range : VRange) :
    Except ResolveError (ResolverState × List Nat) :=
  match next with
  | .package _ none none none => prefetchBatchesInner env st id version current_range
  | _ => .ok (st, [])

/-- The requests submitted by a burst (`[]` when the burst errored before
any submission, as an unregistered task does). -/
def sentList (r : Except ResolveError (ResolverState × List Nat)) : List Nat :=
  match r with
  | .ok sr => sr.2
  | .error _ => []

/-- One controller-facing operation, for reachability arguments: an attempt
report, a read of `should_prefetch`, or a prefetch burst. -/
inductive Op where
  | versionTried (id : Nat) (package : PubGrubPackageInner)
  | shouldPrefetch (id : Nat)
  | prefetchBurst (env : PrefetchEnv) (id : Nat) (next : PubGrubPackageInner)
      (version : Version) (current_range : VRange)

/-- The state transition of one operation.  `should_prefetch` borrows the
state immutably; a burst that errors leaves the state unchanged (the
unregistered-task error precedes every mutation in the source). -/
def stepOp (st : ResolverState) : Op → ResolverState
  | .versionTried id package =>
    { st with prefetcher := st.prefetcher.version_tried id package }
  | .shouldPrefetch _ => st
  | .prefetchBurst env id next version current_range =>
    match prefetchBatches env st id next version current_range with
    | .ok sr => sr.1
    | .error _ => st

/-- The state after a sequence of operations from the default state. -/
def runOps (ops : List Op) : ResolverState :=
  ops.foldl stepOp ResolverState.default

/-- The four URL-source tags, for stating the source-tag / parsed-variant
correspondence. -/
inductive UrlTag where
  | archive | git | path | directory
deriving DecidableEq

/-- The tag of a parsed URL variant. -/
def ParsedUrl.tag : ParsedUrl → UrlTag
  | .archive _ _ _ => .archive
  | .git _ _ _ _ => .git
  | .path _ _ _ => .path
  | .directory _ _ _ _ => .directory

/-- The URL tag a requirement source should parse to (`none` for registry
sources). -/
def RequirementSource.tag : RequirementSource → Option UrlTag
  | .registry _ => none
  | .url _ _ _ _ => some .archive
  | .git _ _ _ _ _ => some .git
  | .path _ _ _ => some .path
  | .directory _ _ _ _ => some .directory

/-- Whether a requirement source is a registry source. -/
def RequirementSource.isRegistry : RequirementSource → Bool
  | .registry _ => true
  | _ => false

/-- The verbatim URL field of a requirement source, when it has one. -/
def RequirementSource.verbatim : RequirementSource → Option VerbatimUrl
  | .registry _ => none
  | .url _ _ _ u => some u
  | .git _ _ _ u _ => some u
  | .path _ u _ => some u
  | .directory _ _ u _ => some u

/-- The controller after `k` attempt reports for handle `0` and no commits. -/
def triedOnly : Nat → BatchPrefetcher
  | 0 => BatchPrefetcher.default
  | k + 1 => (triedOnly k).version_tried 0 (.package 0 none none none)

/-- Commit `last_prefetch` for handle `0` when `should_prefetch` fires, as
the end of a completed prefetch burst does. -/
def commitIfFires (s : BatchPrefetcher) : BatchPrefetcher :=
  let tf := s.should_prefetch 0
  if tf.2 then { s with last_prefetch := mapInsert s.last_prefetch 0 tf.1 } else s

/-- The controller after `k` rounds of: report one attempt for handle `0`,
then run a burst that commits whenever `should_prefetch` fires. -/
def triedCommitRun : Nat → BatchPrefetcher
  | 0 => BatchPrefetcher.default
  | k + 1 => commitIfFires ((triedCommitRun k).version_tried 0 (.package 0 none none none))

/-- The controller as observed right after the `k`-th attempt report of the
commit-after-firing run, before the `k`-th commit decision. -/
def preCommitState : Nat → BatchPrefetcher
  | 0 => BatchPrefetcher.default
  | k + 1 => (triedCommitRun k).version_tried 0 (.package 0 none none none)

/-- A registry requirement with two extras, for witnesses. -/
def regReq : Requirement :=
  { name := 1, extras := [7, 8], marker := none, source := .registry [(SpecOp.ge, 3)] }

/-- A git requirement with one extra, for witnesses. -/
def gitReq : Requirement :=
  { name := 1, extras := [4], marker := none
    source := .git 3 5 (some 6) { raw := 7 } none }

/-- A self-referential registry requirement with a non-trivial marker. -/
def selfMarkerReq : Requirement :=
  { name := 0, extras := [], marker := some 0, source := .registry [] }

/-- A self-referential registry requirement with a trivially-true marker. -/
def selfPlainReq : Requirement :=
  { name := 0, extras := [2], marker := none, source := .registry [] }

/-- A candidate whose wheel has no PEP 658 metadata, for the
capability-abort scenarios. -/
def abortCand : Candidate :=
  { version := 2, version_id := 42
    compatible := some (.compatibleWheel
      { dist_info_metadata := false, index := 0, requires_python := none }) }

/-- A burst environment whose selector never returns a candidate. -/
def envNone : PrefetchEnv :=
  { selectNoPreference := fun _ => none
    useHighestVersion := true
    unchangeable := none
    supportsRangeRequests := fun _ => true
    installedContainedBy := fun _ => true
    targetContainedBy := fun _ => true
    versionsFound := some true }

/-- A burst environment that immediately offers `abortCand` on an index
without range-request support. -/
def envAbort : PrefetchEnv :=
  { envNone with
    selectNoPreference := fun r => if r 2 then some abortCand else none
    supportsRangeRequests := fun _ => false }

/-- A burst environment with a positive unchangeable-constraints term. -/
def envPos : PrefetchEnv :=
  { envNone with unchangeable := some (.positive (VRange.strictlyHigherThan 1)) }

/-- A resolver state in which handle `0` has five recorded attempts and no
committed prefetch. -/
def stTried5 : ResolverState :=
  { prefetcher := { tried_versions := [(0, 5)], last_prefetch := [] }
    registered := [] }

/-- The state `stTried5` after a completed burst committed `last_prefetch`. -/
def stCommitted : ResolverState :=
  { prefetcher := { tried_versions := [(0, 5)], last_prefetch := [(0, 5)] }
    registered := [] }

/-! ## Lemmas about the requirement translator -/

theorem from_requirement_package (requirement : Requirement) (extra : Option Nat) :
    (PubGrubRequirement.from_requirement requirement extra).package =
      PubGrubPackage.from_package requirement.name extra requirement.marker := by
  unfold PubGrubRequirement.from_requirement
  split <;> rfl

theorem translateOne_fields {requirement : Requirement} {dev source_name extra : Option Nat}
    {d : PubGrubDependency}
    (h : (translateOne requirement dev source_name extra).1 = some d) :
    d.package = (PubGrubRequirement.from_requirement requirement extra).package ∧
    d.version = (PubGrubRequirement.from_requirement requirement extra).version ∧
    d.specifier = (PubGrubRequirement.from_requirement requirement extra).specifier ∧
    d.url = (PubGrubRequirement.from_requirement requirement extra).url := by
  unfold translateOne classifyDependency at h
  split at h
  case _ name e dv mk heq =>
    split at h
    · simp at h
    · simp at h
      obtain rfl := h.symm
      exact ⟨rfl, rfl, rfl, rfl⟩
  case _ n mk heq =>
    simp at h
    obtain rfl := h.symm
    exact ⟨rfl, rfl, rfl, rfl⟩
  case _ n e mk heq =>
    simp at h
    obtain rfl := h.symm
    exact ⟨rfl, rfl, rfl, rfl⟩
  case _ =>
    simp at h

theorem translateOne_extra_eq (requirement : Requirement) (dev source_name : Option Nat)
    (e : Nat) :
    translateOne requirement dev source_name (some e) =
      (some { package := (PubGrubRequirement.from_requirement requirement (some e)).package
              version := (PubGrubRequirement.from_requirement requirement (some e)).version
              specifier := (PubGrubRequirement.from_requirement requirement (some e)).specifier
              url := (PubGrubRequirement.from_requirement requirement (some e)).url }, []) := by
  obtain ⟨name, extras, marker, source⟩ := requirement
  cases source <;> rfl

theorem translateOne_base_self (requirement : Requirement)
    (hm : requirement.marker = none) :
    translateOne requirement none (some requirement.name) none =
      (none, [requirement.name]) := by
  obtain ⟨name, extras, marker, source⟩ := requirement
  simp only at hm
  subst hm
  cases source <;> simp [translateOne, classifyDependency,
    PubGrubRequirement.from_requirement,
    PubGrubRequirement.from_registry_requirement, PubGrubPackage.from_package]

theorem translateOne_base_nonself (requirement : Requirement) (dev source_name : Option Nat)
    (hm : requirement.marker = none)
    (hok : ¬(dev = none ∧ source_name = some requirement.name)) :
    translateOne requirement dev source_name none =
      (some { package := (PubGrubRequirement.from_requirement requirement none).package
              version := (PubGrubRequirement.from_requirement requirement none).version
              specifier := (PubGrubRequirement.from_requirement requirement none).specifier
              url := (PubGrubRequirement.from_requirement requirement none).url }, []) := by
  obtain ⟨name, extras, marker, source⟩ := requirement
  simp only at hm
  subst hm
  have hok2 : dev = none → ¬source_name = some name := by
    intro h1 h2
    exact hok ⟨h1, h2⟩
  cases source <;>
    simp [translateOne, classifyDependency, PubGrubRequirement.from_requirement,
      PubGrubRequirement.from_registry_requirement, PubGrubPackage.from_package] <;>
    exact hok2

theorem translateOne_base_marker (requirement : Requirement) (dev source_name : Option Nat)
    (m : Nat) (hm : requirement.marker = some m) :
    translateOne requirement dev source_name none =
      (some { package := (PubGrubRequirement.from_requirement requirement none).package
              version := (PubGrubRequirement.from_requirement requirement none).version
              specifier := (PubGrubRequirement.from_requirement requirement none).specifier
              url := (PubGrubRequirement.from_requirement requirement none).url }, []) := by
  obtain ⟨name, extras, marker, source⟩ := requirement
  simp only at hm
  subst hm
  cases source <;> rfl

theorem registry_fields (requirement : Requirement) (s : VersionSpecifiers)
    (hsrc : requirement.source = .registry s) (extra : Option Nat) :
    (PubGrubRequirement.from_requirement requirement extra).version
        = Ranges.fromSpecifiers s ∧
    (PubGrubRequirement.from_requirement requirement extra).specifier = some s ∧
    (PubGrubRequirement.from_requirement requirement extra).url = none := by
  unfold PubGrubRequirement.from_requirement
  rw [hsrc]
  exact ⟨rfl, rfl, rfl⟩

theorem nonregistry_fields (requirement : Requirement)
    (hsrc : requirement.source.isRegistry = false) (extra : Option Nat) :
    (PubGrubRequirement.from_requirement requirement extra).version = VRange.full ∧
    (PubGrubRequirement.from_requirement requirement extra).specifier = none ∧
    ∃ u, (PubGrubRequirement.from_requirement requirement extra).url = some u ∧
      some u.parsed_url.tag = requirement.source.tag ∧
      some u.verbatim = requirement.source.verbatim := by
  unfold PubGrubRequirement.from_requirement
  cases h : requirement.source with
  | registry s => rw [h] at hsrc; simp [RequirementSource.isRegistry] at hsrc
  | url sub loc ext u =>
    exact ⟨rfl, rfl, ⟨_, rfl, rfl, rfl⟩⟩
  | git repo r p u sub =>
    exact ⟨rfl, rfl, ⟨_, rfl, rfl, rfl⟩⟩
  | path ext u ip =>
    exact ⟨rfl, rfl, ⟨_, rfl, rfl, rfl⟩⟩
  | directory e v u ip =>
    exact ⟨rfl, rfl, ⟨_, rfl, rfl, rfl⟩⟩

theorem mem_translated_iff (requirement : Requirement) (dev source_name : Option Nat)
    (d : PubGrubDependency) :
    d ∈ (PubGrubDependency.from_requirement requirement dev source_name).1 ↔
      ∃ x ∈ (none :: requirement.extras.map some),
        (translateOne requirement dev source_name x).1 = some d := by
  unfold PubGrubDependency.from_requirement
  simp only [List.mem_filterMap, List.mem_map]
  constructor
  · rintro ⟨p, ⟨x, hx, rfl⟩, hfst⟩
    exact ⟨x, hx, hfst⟩
  · rintro ⟨x, hx, hfst⟩
    exact ⟨_, ⟨x, hx, rfl⟩, hfst⟩

theorem filterMap_fst_length {α β δ : Type _} (f : α → Option β × δ) :
    ∀ l : List α, (∀ x ∈ l, ∃ d, (f x).1 = some d) →
      ((l.map f).filterMap Prod.fst).length = l.length := by
  intro l
  induction l with
  | nil => intro _; rfl
  | cons a l ih =>
    intro h
    obtain ⟨d, hd⟩ := h a (by simp)
    have hrest := ih (fun x hx => h x (by simp [hx]))
    rw [List.map_cons, List.filterMap_cons, hd]
    rw [List.length_cons, List.length_cons, hrest]

theorem from_requirement_fst (requirement : Requirement) (dev source_name : Option Nat) :
    (PubGrubDependency.from_requirement requirement dev source_name).1 =
      ((none :: requirement.extras.map some).map
        (translateOne requirement dev source_name)).filterMap Prod.fst := rfl

theorem from_requirement_snd (requirement : Requirement) (dev source_name : Option Nat) :
    (PubGrubDependency.from_requirement requirement dev source_name).2 =
      (((none :: requirement.extras.map some).map
        (translateOne requirement dev source_name)).map Prod.snd).flatten := rfl

theorem flatten_eq_nil {l : List (List Nat)} (h : ∀ x ∈ l, x = []) :
    l.flatten = [] := by
  induction l with
  | nil => rfl
  | cons a l ih =>
    rw [List.flatten_cons, h a (by simp), List.nil_append]
    exact ih (fun x hx => h x (by simp [hx]))

/-! ## Claim theorems: requirement translation -/

/-- C1: for every requirement with a `Registry { specifier }` source whose
name differs from the owning package (or with no owning package given),
`translate` yields exactly one dependency for the base plus one per extra,
and every yielded dependency has range `from_specifier(specifier)`, origin
specifier `Some(specifier)`, and no URL. -/
theorem registry_translation (requirement : Requirement) (dev source_name : Option Nat)
    (s : VersionSpecifiers) (hsrc : requirement.source = .registry s)
    (hself : source_name ≠ some requirement.name) :
    (PubGrubDependency.from_requirement requirement dev source_name).1.length
        = 1 + requirement.extras.length ∧
    ∀ d ∈ (PubGrubDependency.from_requirement requirement dev source_name).1,
      d.version = Ranges.fromSpecifiers s ∧ d.specifier = some s ∧ d.url = none := by
  have hyield : ∀ x ∈ (none :: requirement.extras.map some),
      ∃ d, (translateOne requirement dev source_name x).1 = some d := by
    intro x hx
    cases x with
    | none =>
      cases hmk : requirement.marker with
      | none =>
        exact ⟨_, by rw [translateOne_base_nonself requirement dev source_name hmk
          (fun hc => hself hc.2)]⟩
      | some m =>
        exact ⟨_, by rw [translateOne_base_marker requirement dev source_name m hmk]⟩
    | some e =>
      exact ⟨_, by rw [translateOne_extra_eq]⟩
  constructor
  · rw [from_requirement_fst,
      filterMap_fst_length (translateOne requirement dev source_name)
        (none :: requirement.extras.map some) hyield]
    simp [Nat.add_comm]
  · intro d hd
    obtain ⟨x, hx, hfst⟩ := (mem_translated_iff requirement dev source_name d).mp hd
    obtain ⟨hpk, hver, hspec, hurl⟩ := translateOne_fields hfst
    obtain ⟨h1, h2, h3⟩ := registry_fields requirement s hsrc x
    exact ⟨hver.trans h1, hspec.trans h2, hurl.trans h3⟩

theorem registry_translation_witness :
    regReq.source = .registry [(SpecOp.ge, 3)] ∧
    (some 2 : Option Nat) ≠ some regReq.name ∧
    ((PubGrubDependency.from_requirement regReq none (some 2)).1.length
        = 1 + regReq.extras.length ∧
     ∀ d ∈ (PubGrubDependency.from_requirement regReq none (some 2)).1,
       d.version = Ranges.fromSpecifiers [(SpecOp.ge, 3)] ∧
       d.specifier = some [(SpecOp.ge, 3)] ∧ d.url = none) :=
  ⟨rfl, by decide, registry_translation regReq none (some 2) [(SpecOp.ge, 3)] rfl (by decide)⟩

/-- C2: for every requirement with a non-registry source, every yielded
dependency has the full range, no origin specifier, and a URL whose parsed
variant corresponds to the source tag with the verbatim user spelling
preserved alongside it. -/
theorem nonregistry_translation (requirement : Requirement) (dev source_name : Option Nat)
    (hsrc : requirement.source.isRegistry = false) :
    ∀ d ∈ (PubGrubDependency.from_requirement requirement dev source_name).1,
      d.version = VRange.full ∧ d.specifier = none ∧
      ∃ u, d.url = some u ∧ some u.parsed_url.tag = requirement.source.tag ∧
        some u.verbatim = requirement.source.verbatim := by
  intro d hd
  obtain ⟨x, hx, hfst⟩ := (mem_translated_iff requirement dev source_name d).mp hd
  obtain ⟨hpk, hver, hspec, hurl⟩ := translateOne_fields hfst
  obtain ⟨h1, h2, u, h3, h4, h5⟩ := nonregistry_fields requirement hsrc x
  exact ⟨hver.trans h1, hspec.trans h2, u, hurl.trans h3, h4, h5⟩

theorem nonregistry_translation_witness :
    gitReq.source.isRegistry = false ∧
    ∀ d ∈ (PubGrubDependency.from_requirement gitReq none (some 0)).1,
      d.version = VRange.full ∧ d.specifier = none ∧
      ∃ u, d.url = some u ∧ some u.parsed_url.tag = gitReq.source.tag ∧
        some u.verbatim = gitReq.source.verbatim :=
  ⟨rfl, nonregistry_translation gitReq none (some 0) rfl⟩

/-- C3 as stated fails on the code: a self-referential requirement with a
non-trivial environment marker and no dev group yields its base as a
marker-variant dependency and logs no warning at all, while the claim
demands exactly one warning. -/
theorem self_dependency_counterexample :
    selfMarkerReq.name = 0 ∧ selfMarkerReq.marker = some 0 ∧
    (PubGrubDependency.from_requirement selfMarkerReq none (some 0)).2 = [] ∧
    (PubGrubDependency.from_requirement selfMarkerReq none (some 0)).2.length ≠ 1 ∧
    (PubGrubDependency.from_requirement selfMarkerReq none (some 0)).1.length = 1 :=
  ⟨rfl, rfl, rfl, by decide, rfl⟩

/-- C3 (amended): for every requirement with a trivially-true marker whose
name equals the owning package, translating with no enclosing dev group
yields zero base-package dependencies and logs exactly one warning; with a
dev group present the same-name base-package dependency is yielded. -/
theorem self_dependency_elision (requirement : Requirement) (o : Nat)
    (hm : requirement.marker = none) (hname : requirement.name = o) :
    ((∀ d ∈ (PubGrubDependency.from_requirement requirement none (some o)).1,
        ∀ n e dv mk, d.package ≠ .package n e dv mk) ∧
      (PubGrubDependency.from_requirement requirement none (some o)).2 = [o]) ∧
    ∀ g, ∃ d ∈ (PubGrubDependency.from_requirement requirement (some g) (some o)).1,
      d.package = .package o none none none := by
  subst hname
  refine ⟨⟨?_, ?_⟩, ?_⟩
  · intro d hd n e dv mk hpk
    obtain ⟨x, hx, hfst⟩ := (mem_translated_iff requirement none
      (some requirement.name) d).mp hd
    cases x with
    | none =>
      rw [translateOne_base_self requirement hm] at hfst
      exact Option.noConfusion hfst
    | some ex =>
      rw [translateOne_extra_eq] at hfst
      obtain rfl := Option.some.inj hfst
      rw [from_requirement_package, PubGrubPackage.from_package] at hpk
      exact PubGrubPackageInner.noConfusion hpk
  · rw [from_requirement_snd, List.map_cons, List.map_cons,
      translateOne_base_self requirement hm, List.flatten_cons]
    have hrest : (((requirement.extras.map some).map
        (translateOne requirement none (some requirement.name))).map Prod.snd).flatten
          = [] := by
      apply flatten_eq_nil
      intro x hx
      obtain ⟨y, hy, rfl⟩ := List.mem_map.mp hx
      obtain ⟨e, he, rfl⟩ := List.mem_map.mp hy
      obtain ⟨e2, he2, rfl⟩ := List.mem_map.mp he
      rw [translateOne_extra_eq]
    rw [hrest, List.append_nil]
  · intro g
    have hok : ¬((some g : Option Nat) = none ∧
        (some requirement.name : Option Nat) = some requirement.name) :=
      fun hc => Option.noConfusion hc.1
    have hbase := translateOne_base_nonself requirement (some g)
      (some requirement.name) hm hok
    refine ⟨_, (mem_translated_iff requirement (some g) (some requirement.name) _).mpr
      ⟨none, by simp, by rw [hbase]⟩, ?_⟩
    simp only [from_requirement_package, hm, PubGrubPackage.from_package]

theorem self_dependency_elision_witness :
    selfPlainReq.marker = none ∧ selfPlainReq.name = 0 ∧
    (((∀ d ∈ (PubGrubDependency.from_requirement selfPlainReq none (some 0)).1,
        ∀ n e dv mk, d.package ≠ .package n e dv mk) ∧
      (PubGrubDependency.from_requirement selfPlainReq none (some 0)).2 = [0]) ∧
    ∀ g, ∃ d ∈ (PubGrubDependency.from_requirement selfPlainReq (some g) (some 0)).1,
      d.package = .package 0 none none none) :=
  ⟨rfl, rfl, self_dependency_elision selfPlainReq 0 rfl rfl⟩

/-! ## Claim theorems: prefetch controller thresholds -/

/-- C4: `should_prefetch` returns the recorded attempt count (0 when never
recorded) paired with a flag that is true iff one of the four threshold
conditions holds, with `last_prefetch` taken as 0 when never committed. -/
theorem should_prefetch_thresholds (s : BatchPrefetcher) (id : Nat) :
    (s.should_prefetch id).1 = mapGet s.tried_versions id ∧
    ((s.should_prefetch id).2 = true ↔
      (5 ≤ mapGet s.tried_versions id ∧ mapGet s.last_prefetch id < 5) ∨
      (10 ≤ mapGet s.tried_versions id ∧ mapGet s.last_prefetch id < 10) ∨
      (20 ≤ mapGet s.tried_versions id ∧ mapGet s.last_prefetch id < 20) ∨
      (20 ≤ mapGet s.tried_versions id ∧
        20 ≤ mapGet s.tried_versions id - mapGet s.last_prefetch id)) := by
  refine ⟨rfl, ?_⟩
  simp only [BatchPrefetcher.should_prefetch, Bool.or_eq_true, Bool.and_eq_true,
    decide_eq_true_iff, ge_iff_le]
  tauto

/-- C5 as stated fails on the code: with `tried` incrementing and no commit
ever taken, `should_prefetch` also fires at `tried = 6` (indeed at every
count from 5 on), not only at 5, 10 and 20. -/
theorem threshold_scenario_counterexample :
    (triedOnly 6).should_prefetch 0 = (6, true) ∧
    ((6 : Nat) ≠ 5 ∧ (6 : Nat) ≠ 10 ∧ (6 : Nat) ≠ 20) := by
  decide

/-- C5 (amended): if `tried` increments through 1..25 and every firing burst
is immediately committed (as a completed `prefetch_batches` does),
`should_prefetch` reports the count and fires exactly at 5, 10 and 20. -/
theorem threshold_scenario (k : Nat) (hk : k < 26) :
    ((preCommitState k).should_prefetch 0).1 = k ∧
    (((preCommitState k).should_prefetch 0).2 = true ↔
      (k = 5 ∨ k = 10 ∨ k = 20)) := by
  have H : ∀ j, j < 26 → (((preCommitState j).should_prefetch 0).1 = j ∧
      ((((preCommitState j).should_prefetch 0).2 = true) ↔
        (j = 5 ∨ j = 10 ∨ j = 20))) := by decide
  exact H k hk

/-! ## Lemmas about the prefetch loop and burst -/

theorem mapGet_mapInsert_self (m : List (Nat × Nat)) (id v : Nat) :
    mapGet (mapInsert m id v) id = v := by
  induction m with
  | nil => simp [mapInsert, mapGet]
  | cons kv rest ih =>
    by_cases h : kv.1 = id
    · simp [mapInsert, mapGet, h]
    · simp [mapInsert, mapGet, h, ih]

theorem mapGet_mapInsert_other (m : List (Nat × Nat)) (id v j : Nat) (h : j ≠ id) :
    mapGet (mapInsert m id v) j = mapGet m j := by
  induction m with
  | nil => simp [mapInsert, mapGet, Ne.symm h]
  | cons kv rest ih =>
    by_cases hk : kv.1 = id
    · simp [mapInsert, mapGet, hk, Ne.symm h]
    · simp [mapInsert, mapGet, hk, ih]

theorem prefetchLoop_zero (env : PrefetchEnv) (phase : BatchPrefetchStrategy)
    (registered : List Nat) :
    prefetchLoop env 0 phase registered = ([], registered, false) := rfl

theorem prefetchLoop_succ (env : PrefetchEnv) (fuel : Nat)
    (phase : BatchPrefetchStrategy) (registered : List Nat) :
    prefetchLoop env (fuel + 1) phase registered =
      (match phaseStep env phase with
      | .exhausted => ([], registered, false)
      | .continueSwitch phase2 => prefetchLoop env fuel phase2 registered
      | .candidate candidate phase2 =>
        match dispatchGate env candidate with
        | .abort => ([], registered, true)
        | .skip => prefetchLoop env fuel phase2 registered
        | .pass =>
          if candidate.version_id ∈ registered then
            prefetchLoop env fuel phase2 registered
          else
            let rest := prefetchLoop env fuel phase2 (candidate.version_id :: registered)
            (candidate.version_id :: rest.1, rest.2.1, rest.2.2)) := rfl

theorem prefetchLoop_length (env : PrefetchEnv) :
    ∀ (fuel : Nat) (phase : BatchPrefetchStrategy) (registered : List Nat),
      (prefetchLoop env fuel phase registered).1.length ≤ fuel := by
  intro fuel
  induction fuel with
  | zero => intro phase registered; simp [prefetchLoop_zero]
  | succ fuel ih =>
    intro phase registered
    cases hps : phaseStep env phase with
    | exhausted => simp [prefetchLoop_succ, hps]
    | continueSwitch phase2 =>
      simp only [prefetchLoop_succ, hps]
      exact (ih phase2 registered).trans (Nat.le_succ fuel)
    | candidate c phase2 =>
      cases hg : dispatchGate env c with
      | abort => simp [prefetchLoop_succ, hps, hg]
      | skip =>
        simp only [prefetchLoop_succ, hps, hg]
        exact (ih phase2 registered).trans (Nat.le_succ fuel)
      | pass =>
        simp only [prefetchLoop_succ, hps, hg]
        by_cases hmem : c.version_id ∈ registered
        · rw [if_pos hmem]
          exact (ih phase2 registered).trans (Nat.le_succ fuel)
        · rw [if_neg hmem]
          simp only [List.length_cons]
          exact Nat.succ_le_succ (ih phase2 _)

theorem prefetchLoop_mono (env : PrefetchEnv) :
    ∀ (fuel : Nat) (phase : BatchPrefetchStrategy) (registered : List Nat) (x : Nat),
      x ∈ registered → x ∈ (prefetchLoop env fuel phase registered).2.1 := by
  intro fuel
  induction fuel with
  | zero => intro phase registered x hx; simpa [prefetchLoop_zero] using hx
  | succ fuel ih =>
    intro phase registered x hx
    cases hps : phaseStep env phase with
    | exhausted => simpa [prefetchLoop_succ, hps] using hx
    | continueSwitch phase2 =>
      simp only [prefetchLoop_succ, hps]
      exact ih phase2 registered x hx
    | candidate c phase2 =>
      cases hg : dispatchGate env c with
      | abort => simpa [prefetchLoop_succ, hps, hg] using hx
      | skip =>
        simp only [prefetchLoop_succ, hps, hg]
        exact ih phase2 registered x hx
      | pass =>
        simp only [prefetchLoop_succ, hps, hg]
        by_cases hmem : c.version_id ∈ registered
        · rw [if_pos hmem]
          exact ih phase2 registered x hx
        · rw [if_neg hmem]
          exact ih phase2 _ x (List.mem_cons_of_mem _ hx)

theorem prefetchLoop_replay (env : PrefetchEnv) :
    ∀ (fuel : Nat) (phase : BatchPrefetchStrategy) (registered : List Nat),
      prefetchLoop env fuel phase ((prefetchLoop env fuel phase registered).2.1) =
        ([], (prefetchLoop env fuel phase registered).2.1,
          (prefetchLoop env fuel phase registered).2.2) := by
  intro fuel
  induction fuel with
  | zero => intro phase registered; simp [prefetchLoop_zero]
  | succ fuel ih =>
    intro phase registered
    cases hps : phaseStep env phase with
    | exhausted => simp [prefetchLoop_succ, hps]
    | continueSwitch phase2 =>
      simp only [prefetchLoop_succ, hps]
      exact ih phase2 registered
    | candidate c phase2 =>
      cases hg : dispatchGate env c with
      | abort => simp [prefetchLoop_succ, hps, hg]
      | skip =>
        simp only [prefetchLoop_succ, hps, hg]
        exact ih phase2 registered
      | pass =>
        simp only [prefetchLoop_succ, hps, hg]
        by_cases hmem : c.version_id ∈ registered
        · rw [if_pos hmem]
          rw [if_pos (prefetchLoop_mono env fuel phase2 registered c.version_id hmem)]
          exact ih phase2 registered
        · rw [if_neg hmem]
          simp only
          have hmem2 : c.version_id ∈
              (prefetchLoop env fuel phase2 (c.version_id :: registered)).2.1 :=
            prefetchLoop_mono env fuel phase2 _ c.version_id (List.mem_cons_self _ _)
          rw [if_pos hmem2]
          exact ih phase2 (c.version_id :: registered)

theorem prefetchBatches_eq_inner (env : PrefetchEnv) (st : ResolverState)
    (id name : Nat) (version : Version) (current_range : VRange) :
    prefetchBatches env st id (.package name none none none) version current_range =
      prefetchBatchesInner env st id version current_range := rfl

theorem prefetchBatches_nonbase (env : PrefetchEnv) (st : ResolverState) (id : Nat)
    (next : PubGrubPackageInner) (version : Version) (current_range : VRange)
    (h : ∀ name, next ≠ .package name none none none) :
    prefetchBatches env st id next version current_range = .ok (st, []) := by
  cases next with
  | package n e d m =>
    cases e with
    | some _ => rfl
    | none =>
      cases d with
      | some _ => rfl
      | none =>
        cases m with
        | some _ => rfl
        | none => exact absurd rfl (h n)
  | root => rfl
  | extra a b c => rfl
  | dev a b c => rfl
  | marker a b => rfl

theorem burstResult_snd (st : ResolverState) (id numTried : Nat)
    (r : List Nat × List Nat × Bool) : (burstResult st id numTried r).2 = r.1 := by
  unfold burstResult
  split <;> rfl

theorem burstResult_tried (st : ResolverState) (id numTried : Nat)
    (r : List Nat × List Nat × Bool) :
    (burstResult st id numTried r).1.prefetcher.tried_versions
      = st.prefetcher.tried_versions := by
  unfold burstResult
  split <;> rfl

theorem burstResult_registered (st : ResolverState) (id numTried : Nat)
    (r : List Nat × List Nat × Bool) :
    (burstResult st id numTried r).1.registered = r.2.1 := by
  unfold burstResult
  split <;> rfl

theorem burstResult_abort (st : ResolverState) (id numTried : Nat)
    (r : List Nat × List Nat × Bool) (h : r.2.2 = true) :
    (burstResult st id numTried r).1.prefetcher = st.prefetcher := by
  unfold burstResult
  rw [if_pos h]

theorem burstResult_commit (st : ResolverState) (id numTried : Nat)
    (r : List Nat × List Nat × Bool) (h : r.2.2 = false) :
    (burstResult st id numTried r).1.prefetcher.last_prefetch
      = mapInsert st.prefetcher.last_prefetch id numTried := by
  unfold burstResult
  rw [h]
  rfl

theorem should_prefetch_fst (s : BatchPrefetcher) (id : Nat) :
    (s.should_prefetch id).1 = mapGet s.tried_versions id := rfl

theorem should_prefetch_self (s : BatchPrefetcher) (id : Nat)
    (h : mapGet s.last_prefetch id = mapGet s.tried_versions id) :
    (s.should_prefetch id).2 = false := by
  unfold BatchPrefetcher.should_prefetch
  simp only [h]
  rw [Bool.eq_false_iff]
  intro hcon
  simp only [Bool.or_eq_true, Bool.and_eq_true, decide_eq_true_iff] at hcon
  omega

theorem inner_not_fires (env : PrefetchEnv) (st : ResolverState) (id : Nat)
    (version : Version) (current_range : VRange)
    (hf : (st.prefetcher.should_prefetch id).2 = false) :
    prefetchBatchesInner env st id version current_range = .ok (st, []) := by
  unfold prefetchBatchesInner
  rw [hf]
  rfl

theorem inner_ok_characterization (env : PrefetchEnv) (st : ResolverState) (id : Nat)
    (version : Version) (current_range : VRange) (st2 : ResolverState) (sent : List Nat)
    (hok : prefetchBatchesInner env st id version current_range = .ok (st2, sent)) :
    ((st.prefetcher.should_prefetch id).2 = true ∧ env.versionsFound = some true ∧
      st2 = (burstResult st id (st.prefetcher.should_prefetch id).1
        (prefetchLoop env (min (st.prefetcher.should_prefetch id).1 50)
          (.compatible current_range version) st.registered)).1 ∧
      sent = (burstResult st id (st.prefetcher.should_prefetch id).1
        (prefetchLoop env (min (st.prefetcher.should_prefetch id).1 50)
          (.compatible current_range version) st.registered)).2) ∨
    (st2 = st ∧ sent = [] ∧
      ((st.prefetcher.should_prefetch id).2 = false ∨ env.versionsFound = some false)) := by
  by_cases hf : (st.prefetcher.should_prefetch id).2
  · unfold prefetchBatchesInner at hok
    simp only [hf, Bool.not_true, Bool.false_eq_true, if_false] at hok
    cases hv : env.versionsFound with
    | none =>
      simp only [hv] at hok
      exact Except.noConfusion hok
    | some b =>
      simp only [hv] at hok
      cases b with
      | false =>
        have hpair := Except.ok.inj hok
        exact Or.inr ⟨(congrArg Prod.fst hpair).symm, (congrArg Prod.snd hpair).symm,
          Or.inr rfl⟩
      | true =>
        have hpair := Except.ok.inj hok
        exact Or.inl ⟨hf, rfl, (congrArg Prod.fst hpair).symm,
          (congrArg Prod.snd hpair).symm⟩
  · have hf2 : (st.prefetcher.should_prefetch id).2 = false := by
      revert hf
      cases (st.prefetcher.should_prefetch id).2 <;> simp
    rw [inner_not_fires env st id version current_range hf2] at hok
    have hpair := Except.ok.inj hok
    exact Or.inr ⟨(congrArg Prod.fst hpair).symm, (congrArg Prod.snd hpair).symm,
      Or.inl hf2⟩

theorem prefetchBatches_ok_state (env : PrefetchEnv) (st : ResolverState) (id : Nat)
    (next : PubGrubPackageInner) (version : Version) (current_range : VRange)
    (st2 : ResolverState) (sent : List Nat)
    (hok : prefetchBatches env st id next version current_range = .ok (st2, sent)) :
    st2.prefetcher.tried_versions = st.prefetcher.tried_versions ∧
    (st2.prefetcher.last_prefetch = st.prefetcher.last_prefetch ∨
      st2.prefetcher.last_prefetch = mapInsert st.prefetcher.last_prefetch id
        (mapGet st.prefetcher.tried_versions id)) := by
  by_cases hb : ∃ name, next = PubGrubPackageInner.package name none none none
  · obtain ⟨name, rfl⟩ := hb
    rw [prefetchBatches_eq_inner] at hok
    rcases inner_ok_characterization env st id version current_range st2 sent hok with
      ⟨hfire, hfound, hst2, hsent⟩ | ⟨hst2, hsent, hcase⟩
    · subst hst2
      refine ⟨burstResult_tried st id _ _, ?_⟩
      cases habort : (prefetchLoop env (min (st.prefetcher.should_prefetch id).1 50)
          (.compatible current_range version) st.registered).2.2 with
      | true => rw [burstResult_abort st id _ _ habort]; exact Or.inl rfl
      | false =>
        rw [burstResult_commit st id _ _ habort, should_prefetch_fst]
        exact Or.inr rfl
    · subst hst2
      exact ⟨rfl, Or.inl rfl⟩
  · rw [prefetchBatches_nonbase env st id next version current_range
      (fun name hn => hb ⟨name, hn⟩)] at hok
    have hpair := Except.ok.inj hok
    have hst2 : st2 = st := (congrArg Prod.fst hpair).symm
    subst hst2
    exact ⟨rfl, Or.inl rfl⟩

theorem threshold_scenario_witness :
    (20 : Nat) < 26 ∧
    (((preCommitState 20).should_prefetch 0).1 = 20 ∧
     (((preCommitState 20).should_prefetch 0).2 = true ↔
       ((20 : Nat) = 5 ∨ (20 : Nat) = 10 ∨ (20 : Nat) = 20))) :=
  ⟨by decide, threshold_scenario 20 (by decide)⟩

theorem inner_not_found (env : PrefetchEnv) (st : ResolverState) (id : Nat)
    (version : Version) (current_range : VRange)
    (hv : env.versionsFound = some false)
    (hf : (st.prefetcher.should_prefetch id).2 = true) :
    prefetchBatchesInner env st id version current_range = .ok (st, []) := by
  unfold prefetchBatchesInner
  rw [hf]
  simp only [Bool.not_true, Bool.false_eq_true, if_false, hv]

theorem version_tried_tried (s : BatchPrefetcher) (id2 : Nat)
    (pkg : PubGrubPackageInner) (id : Nat) :
    mapGet s.tried_versions id ≤ mapGet (s.version_tried id2 pkg).tried_versions id := by
  unfold BatchPrefetcher.version_tried
  split
  · by_cases hid : id = id2
    · subst hid
      show mapGet s.tried_versions id ≤
        mapGet (mapInsert s.tried_versions id (mapGet s.tried_versions id + 1)) id
      rw [mapGet_mapInsert_self]
      exact Nat.le_succ _
    · show mapGet s.tried_versions id ≤
        mapGet (mapInsert s.tried_versions id2 (mapGet s.tried_versions id2 + 1)) id
      rw [mapGet_mapInsert_other _ _ _ _ hid]
  · exact Nat.le_refl _

theorem version_tried_last (s : BatchPrefetcher) (id2 : Nat) (pkg : PubGrubPackageInner) :
    (s.version_tried id2 pkg).last_prefetch = s.last_prefetch := by
  unfold BatchPrefetcher.version_tried
  split <;> rfl

theorem stepOp_tried_mono (st : ResolverState) (op : Op) (id : Nat) :
    mapGet st.prefetcher.tried_versions id ≤
      mapGet (stepOp st op).prefetcher.tried_versions id := by
  cases op with
  | versionTried id2 pkg => exact version_tried_tried st.prefetcher id2 pkg id
  | shouldPrefetch j => exact Nat.le_refl _
  | prefetchBurst env id2 next version current_range =>
    simp only [stepOp]
    cases hr : prefetchBatches env st id2 next version current_range with
    | error e => exact Nat.le_refl _
    | ok sr =>
      obtain ⟨st2, sent⟩ := sr
      have h := (prefetchBatches_ok_state env st id2 next version current_range
        st2 sent hr).1
      show mapGet st.prefetcher.tried_versions id ≤
        mapGet st2.prefetcher.tried_versions id
      rw [h]

theorem stepOp_inv (st : ResolverState) (op : Op)
    (h : ∀ id, mapGet st.prefetcher.last_prefetch id ≤
      mapGet st.prefetcher.tried_versions id) :
    ∀ id, mapGet (stepOp st op).prefetcher.last_prefetch id ≤
      mapGet (stepOp st op).prefetcher.tried_versions id := by
  intro id
  cases op with
  | shouldPrefetch j => exact h id
  | versionTried id2 pkg =>
    show mapGet (st.prefetcher.version_tried id2 pkg).last_prefetch id ≤
      mapGet (st.prefetcher.version_tried id2 pkg).tried_versions id
    rw [version_tried_last]
    exact (h id).trans (version_tried_tried st.prefetcher id2 pkg id)
  | prefetchBurst env id2 next version current_range =>
    simp only [stepOp]
    cases hr : prefetchBatches env st id2 next version current_range with
    | error e => exact h id
    | ok sr =>
      obtain ⟨st2, sent⟩ := sr
      obtain ⟨htried, hlast⟩ := prefetchBatches_ok_state env st id2 next version
        current_range st2 sent hr
      show mapGet st2.prefetcher.last_prefetch id ≤
        mapGet st2.prefetcher.tried_versions id
      rw [htried]
      rcases hlast with hsame | hins
      · rw [hsame]
        exact h id
      · rw [hins]
        by_cases hid : id = id2
        · subst hid
          rw [mapGet_mapInsert_self]
        · rw [mapGet_mapInsert_other _ _ _ _ hid]
          exact h id

theorem runOps_append (ops : List Op) (op : Op) :
    runOps (ops ++ [op]) = stepOp (runOps ops) op := by
  unfold runOps
  rw [List.foldl_append]
  rfl

theorem foldl_inv (ops : List Op) :
    ∀ st, (∀ id, mapGet st.prefetcher.last_prefetch id ≤
        mapGet st.prefetcher.tried_versions id) →
      ∀ id, mapGet (ops.foldl stepOp st).prefetcher.last_prefetch id ≤
        mapGet (ops.foldl stepOp st).prefetcher.tried_versions id := by
  induction ops with
  | nil => intro st h; exact h
  | cons op ops ih =>
    intro st h
    exact ih (stepOp st op) (stepOp_inv st op h)

/-! ## Claim theorems: prefetch burst -/

/-- C6: every invocation of the prefetch burst submits at most
`min(tried, 50)` fetch work items to the request channel, where `tried` is
the recorded attempt count for the handle at burst start. -/
theorem prefetch_burst_bound (env : PrefetchEnv) (st : ResolverState) (id : Nat)
    (next : PubGrubPackageInner) (version : Version) (current_range : VRange) :
    (sentList (prefetchBatches env st id next version current_range)).length ≤
      min (mapGet st.prefetcher.tried_versions id) 50 := by
  cases hr : prefetchBatches env st id next version current_range with
  | error e => simp [sentList]
  | ok sr =>
    obtain ⟨st2, sent⟩ := sr
    by_cases hb : ∃ name, next = PubGrubPackageInner.package name none none none
    · obtain ⟨name, rfl⟩ := hb
      rw [prefetchBatches_eq_inner] at hr
      rcases inner_ok_characterization env st id version current_range st2 sent hr with
        ⟨hfire, hfound, hst2, hsent⟩ | ⟨hst2, hsent, hcase⟩
      · subst hsent
        simp only [sentList, burstResult_snd]
        rw [← should_prefetch_fst st.prefetcher id]
        exact prefetchLoop_length env _ _ _
      · subst hsent
        simp [sentList]
    · rw [prefetchBatches_nonbase env st id next version current_range
        (fun name hn => hb ⟨name, hn⟩)] at hr
      have hpair := Except.ok.inj hr
      have hsent : sent = [] := (congrArg Prod.snd hpair).symm
      subst hsent
      simp [sentList]

/-- C7: in Phase B of the prefetch walk, the candidate range is the set of
versions strictly below the last version under a highest-version policy and
strictly above it under a lowest-version one, intersected with a positive
unchangeable-constraints term or with the complement of a negative one; on a
selector hit the picked version becomes the new last version and the
candidate is emitted to the dispatch gates, and on a miss the walk stops. -/
theorem in_order_walk (env : PrefetchEnv) (previous : Version) :
    (∀ v, inOrderRange env previous v = true ↔
      ((if env.useHighestVersion = true then v < previous else previous < v) ∧
        (∀ t, env.unchangeable = some (Term.positive t) → t v = true) ∧
        (∀ t, env.unchangeable = some (Term.negative t) → t v = false))) ∧
    (∀ c, env.selectNoPreference (inOrderRange env previous) = some c →
      phaseStep env (.inOrder previous) = .candidate c (.inOrder c.version)) ∧
    (env.selectNoPreference (inOrderRange env previous) = none →
      ∀ fuel registered,
        prefetchLoop env (fuel + 1) (.inOrder previous) registered
          = ([], registered, false)) := by
  refine ⟨?_, ?_, ?_⟩
  · intro v
    unfold inOrderRange
    cases hu : env.unchangeable with
    | none =>
      by_cases hh : env.useHighestVersion = true <;>
        simp [hh, VRange.strictlyLowerThan, VRange.strictlyHigherThan]
    | some t0 =>
      cases t0 with
      | positive t =>
        by_cases hh : env.useHighestVersion = true <;>
          simp [hh, VRange.strictlyLowerThan, VRange.strictlyHigherThan,
            VRange.intersection, Bool.and_eq_true]
      | negative t =>
        by_cases hh : env.useHighestVersion = true <;>
          simp [hh, VRange.strictlyLowerThan, VRange.strictlyHigherThan,
            VRange.intersection, VRange.complement, Bool.and_eq_true]
  · intro c hc
    simp only [phaseStep, hc]
  · intro hc fuel registered
    have hps : phaseStep env (.inOrder previous) = .exhausted := by
      simp only [phaseStep, hc]
    simp only [prefetchLoop_succ, hps]

theorem in_order_walk_witness :
    envNone.selectNoPreference (inOrderRange envNone 5) = none ∧
    prefetchLoop envNone 1 (.inOrder 5) [] = ([], [], false) :=
  ⟨rfl, (in_order_walk envNone 5).2.2 rfl 0 []⟩

/-- C8 as stated fails on the code: a burst that fires, returns Ok, but is
aborted for missing index capabilities does not commit — `last_prefetch`
stays 0 although `tried` is 5 at burst start. -/
theorem commit_abort_counterexample :
    (stTried5.prefetcher.should_prefetch 0).2 = true ∧
    (stTried5.prefetcher.should_prefetch 0).1 = 5 ∧
    prefetchBatches envAbort stTried5 0 (.package 0 none none none) 3 VRange.full
      = .ok (stTried5, []) ∧
    mapGet stTried5.prefetcher.last_prefetch 0 = 0 :=
  ⟨rfl, rfl, rfl, rfl⟩

/-- C8 (amended): a burst invocation on a base package that returns Ok never
touches `tried_versions` or another handle's `last_prefetch`; if it fires,
finds a versions response, and is not aborted for missing index
capabilities, it ends with `last_prefetch[handle] = tried` regardless of how
many items were dispatched; a burst that does not fire, finds no versions,
or aborts leaves the controller state entirely unchanged. -/
theorem commit_frame (env : PrefetchEnv) (st : ResolverState) (id name : Nat)
    (version : Version) (current_range : VRange) (st2 : ResolverState) (sent : List Nat)
    (hok : prefetchBatches env st id (.package name none none none) version current_range
      = .ok (st2, sent)) :
    st2.prefetcher.tried_versions = st.prefetcher.tried_versions ∧
    (∀ j, j ≠ id →
      mapGet st2.prefetcher.last_prefetch j = mapGet st.prefetcher.last_prefetch j) ∧
    (((st.prefetcher.should_prefetch id).2 = true ∧ env.versionsFound = some true ∧
        (prefetchLoop env (min (st.prefetcher.should_prefetch id).1 50)
          (.compatible current_range version) st.registered).2.2 = false) →
      mapGet st2.prefetcher.last_prefetch id = (st.prefetcher.should_prefetch id).1) ∧
    (((st.prefetcher.should_prefetch id).2 = false ∨ env.versionsFound ≠ some true ∨
        (prefetchLoop env (min (st.prefetcher.should_prefetch id).1 50)
          (.compatible current_range version) st.registered).2.2 = true) →
      st2.prefetcher = st.prefetcher) := by
  rw [prefetchBatches_eq_inner] at hok
  rcases inner_ok_characterization env st id version current_range st2 sent hok with
    ⟨hfire, hfound, hst2, hsent⟩ | ⟨hst2, hsent, hcase⟩
  · subst hst2
    refine ⟨burstResult_tried st id _ _, ?_, ?_, ?_⟩
    · intro j hj
      cases habort : (prefetchLoop env (min (st.prefetcher.should_prefetch id).1 50)
          (.compatible current_range version) st.registered).2.2 with
      | true => rw [burstResult_abort st id _ _ habort]
      | false =>
        rw [burstResult_commit st id _ _ habort, mapGet_mapInsert_other _ _ _ _ hj]
    · rintro ⟨-, -, habort⟩
      rw [burstResult_commit st id _ _ habort, mapGet_mapInsert_self]
    · rintro (hcon | hcon | habort)
      · rw [hfire] at hcon
        exact Bool.noConfusion hcon
      · exact absurd hfound hcon
      · exact burstResult_abort st id _ _ habort
  · subst hst2
    refine ⟨rfl, fun j hj => rfl, ?_, fun h => rfl⟩
    rintro ⟨hfire, hfound, -⟩
    rcases hcase with hcon | hcon
    · rw [hfire] at hcon
      exact Bool.noConfusion hcon
    · rw [hfound] at hcon
      simp at hcon

theorem commit_frame_witness :
    prefetchBatches envNone stTried5 0 (.package 0 none none none) 3 VRange.full
      = .ok (stCommitted, []) ∧
    (stCommitted.prefetcher.tried_versions = stTried5.prefetcher.tried_versions ∧
     (∀ j, j ≠ 0 → mapGet stCommitted.prefetcher.last_prefetch j
        = mapGet stTried5.prefetcher.last_prefetch j) ∧
     (((stTried5.prefetcher.should_prefetch 0).2 = true ∧
         envNone.versionsFound = some true ∧
         (prefetchLoop envNone (min (stTried5.prefetcher.should_prefetch 0).1 50)
           (.compatible VRange.full 3) stTried5.registered).2.2 = false) →
       mapGet stCommitted.prefetcher.last_prefetch 0
         = (stTried5.prefetcher.should_prefetch 0).1) ∧
     (((stTried5.prefetcher.should_prefetch 0).2 = false ∨
         envNone.versionsFound ≠ some true ∨
         (prefetchLoop envNone (min (stTried5.prefetcher.should_prefetch 0).1 50)
           (.compatible VRange.full 3) stTried5.registered).2.2 = true) →
       stCommitted.prefetcher = stTried5.prefetcher)) :=
  ⟨rfl, commit_frame envNone stTried5 0 0 3 VRange.full stCommitted [] rfl⟩

theorem prefetchBatchesInner_idem (env : PrefetchEnv) (st : ResolverState) (id : Nat)
    (version : Version) (current_range : VRange) (st1 : ResolverState) (sent1 : List Nat)
    (h1 : prefetchBatchesInner env st id version current_range = .ok (st1, sent1)) :
    ∃ st2, prefetchBatchesInner env st1 id version current_range = .ok (st2, []) := by
  rcases inner_ok_characterization env st id version current_range st1 sent1 h1 with
    ⟨hfire, hfound, hst1, -⟩ | ⟨hst1, -, hcase⟩
  · subst hst1
    cases habort : (prefetchLoop env (min (st.prefetcher.should_prefetch id).1 50)
        (.compatible current_range version) st.registered).2.2 with
    | false =>
      have hf : ((burstResult st id (st.prefetcher.should_prefetch id).1
          (prefetchLoop env (min (st.prefetcher.should_prefetch id).1 50)
            (.compatible current_range version)
            st.registered)).1.prefetcher.should_prefetch id).2 = false := by
        apply should_prefetch_self
        rw [burstResult_commit st id _ _ habort, burstResult_tried st id _ _,
          mapGet_mapInsert_self, should_prefetch_fst]
      exact ⟨_, inner_not_fires env _ id version current_range hf⟩
    | true =>
      have hp : (burstResult st id (st.prefetcher.should_prefetch id).1
          (prefetchLoop env (min (st.prefetcher.should_prefetch id).1 50)
            (.compatible current_range version) st.registered)).1.prefetcher
          = st.prefetcher := burstResult_abort st id _ _ habort
      have hrun2 : prefetchBatchesInner env
          (burstResult st id (st.prefetcher.should_prefetch id).1
            (prefetchLoop env (min (st.prefetcher.should_prefetch id).1 50)
              (.compatible current_range version) st.registered)).1
          id version current_range
          = .ok ({ (burstResult st id (st.prefetcher.should_prefetch id).1
                (prefetchLoop env (min (st.prefetcher.should_prefetch id).1 50)
                  (.compatible current_range version) st.registered)).1 with
              registered :=
                (prefetchLoop env (min (st.prefetcher.should_prefetch id).1 50)
                  (.compatible current_range version) st.registered).2.1 }, []) := by
        unfold prefetchBatchesInner
        rw [hp, hfire]
        simp only [Bool.not_true, Bool.false_eq_true, if_false, hfound]
        rw [burstResult_registered st id _ _]
        rw [prefetchLoop_replay env (min (st.prefetcher.should_prefetch id).1 50)
          (.compatible current_range version) st.registered]
        simp only [burstResult, habort, if_true]
      exact ⟨_, hrun2⟩
  · rw [hst1]
    rcases hcase with hcon | hcon
    · exact ⟨st, inner_not_fires env st id version current_range hcon⟩
    · by_cases hfire : (st.prefetcher.should_prefetch id).2 = true
      · exact ⟨st, inner_not_found env st id version current_range hcon hfire⟩
      · have hf2 : (st.prefetcher.should_prefetch id).2 = false := by
          revert hfire
          cases (st.prefetcher.should_prefetch id).2 <;> simp
        exact ⟨st, inner_not_fires env st id version current_range hf2⟩

/-- C9: running a prefetch burst twice with unchanged inputs and no
intervening version_tried calls dispatches zero new fetch submissions on the
second run — both when the first run completed and committed (the second
does not fire) and when the first run aborted (the deduplicating
registration set filters every re-walked candidate). -/
theorem prefetch_idempotent (env : PrefetchEnv) (st : ResolverState) (id : Nat)
    (next : PubGrubPackageInner) (version : Version) (current_range : VRange)
    (st1 : ResolverState) (sent1 : List Nat)
    (h1 : prefetchBatches env st id next version current_range = .ok (st1, sent1)) :
    ∃ st2, prefetchBatches env st1 id next version current_range = .ok (st2, []) := by
  by_cases hb : ∃ name, next = PubGrubPackageInner.package name none none none
  · obtain ⟨name, rfl⟩ := hb
    rw [prefetchBatches_eq_inner] at h1 ⊢
    exact prefetchBatchesInner_idem env st id version current_range st1 sent1 h1
  · exact ⟨st1, prefetchBatches_nonbase env st1 id next version current_range
      (fun nm hn => hb ⟨nm, hn⟩)⟩

theorem prefetch_idempotent_witness :
    prefetchBatches envNone stTried5 0 (.package 0 none none none) 3 VRange.full
      = .ok (stCommitted, []) ∧
    ∃ st2, prefetchBatches envNone stCommitted 0 (.package 0 none none none) 3 VRange.full
      = .ok (st2, []) :=
  ⟨rfl, prefetch_idempotent envNone stTried5 0 (.package 0 none none none) 3 VRange.full
    stCommitted [] rfl⟩

/-- C10: in every state reachable from the default state by version_tried,
should_prefetch and prefetch_batches calls, `last_prefetch[id] ≤
tried_versions[id]` holds for every handle (absent entries counting as 0),
and `tried_versions[id]` never decreases across an operation. -/
theorem controller_invariant :
    (∀ ops id, mapGet (runOps ops).prefetcher.last_prefetch id ≤
        mapGet (runOps ops).prefetcher.tried_versions id) ∧
    ∀ ops op id, mapGet (runOps ops).prefetcher.tried_versions id ≤
        mapGet (runOps (ops ++ [op])).prefetcher.tried_versions id := by
  constructor
  · intro ops id
    exact foldl_inv ops ResolverState.default (fun i => Nat.le_refl _) id
  · intro ops op id
    rw [runOps_append]
    exact stepOp_tried_mono (runOps ops) op id

end UvResolver
